import Mathlib

/-!
Shallow embedding of the `validador_csv.py` CSV validation pipeline.

Strings are modelled as lists of characters (`Str`).  Python `re.sub(r'\D','',s)`
becomes a filter on `Char.isDigit`; `str.zfill(8)` becomes left padding with `'0'`;
Python dictionaries become association lists whose insertion preserves the
position of an existing key (as CPython dicts do).  `str.upper`/`str.lower` are
modelled with the ASCII `Char.toUpper`/`Char.toLower`; the accented characters of
the Portuguese messages are unaffected by this simplification in every statement
below.  Whitespace is `Char.isWhitespace`.
-/

abbrev Str := List Char

/-- Python `re.sub(r'\D', '', v)`: keep only the digits of a string. -/
def digitsOf (v : Str) : Str := v.filter Char.isDigit

/-- Python `d.zfill(8)`: left-pad with `'0'` up to length 8 (no-op when longer). -/
def zfill8 (d : Str) : Str := List.replicate (8 - d.length) '0' ++ d

/-- Python `s.lstrip()` on the left only. -/
def lstripWs (s : Str) : Str := s.dropWhile Char.isWhitespace

/-- Python `s.strip()`: drop whitespace from both ends. -/
def strip (s : Str) : Str := ((s.dropWhile Char.isWhitespace).reverse.dropWhile Char.isWhitespace).reverse

/-- Python `re.sub(r'\s+', ' ', s)`: collapse every whitespace run to one `' '`. -/
def collapseWs (s : Str) : Str :=
  s.foldr (fun c acc =>
    if c.isWhitespace then
      match acc with
      | ' ' :: _ => acc
      | _ => ' ' :: acc
    else c :: acc) []

/-- Python `s.upper()` (ASCII model). -/
def upperStr (s : Str) : Str := s.map Char.toUpper

/-- Python `s.lower()` (ASCII model). -/
def lowerStr (s : Str) : Str := s.map Char.toLower

/-- The reassignment `d = d.zfill(8) if 1 <= len(d) < 8 else d` inside
`tentar_corrigir_cep`. -/
def cepPad (d : Str) : Str := if 1 ≤ d.length ∧ d.length < 8 then zfill8 d else d

/-- Function `tentar_corrigir_cep` from `validador_csv.py`: strip non-digits, zero-pad a
1–7 digit result to 8, and hyphenate an 8 digit result as `NNNNN-NNN`;
otherwise return the input unchanged. -/
def tentar_corrigir_cep (v : Str) : Str :=
  if (cepPad (digitsOf v)).length = 8 then
    (cepPad (digitsOf v)).take 5 ++ ('-' :: (cepPad (digitsOf v)).drop 5)
  else v

/-- Function `tentar_corrigir_cpf_cnpj` from `validador_csv.py`. -/
def tentar_corrigir_cpf_cnpj (v : Str) : Str :=
  let d := digitsOf v
  if d.length = 11 then
    d.take 3 ++ ('.' :: (d.drop 3).take 3) ++ ('.' :: (d.drop 6).take 3) ++ ('-' :: d.drop 9)
  else if d.length = 14 then
    d.take 2 ++ ('.' :: (d.drop 2).take 3) ++ ('.' :: (d.drop 5).take 3)
      ++ ('/' :: (d.drop 8).take 4) ++ ('-' :: d.drop 12)
  else v

/-- Function `corrigir_telefone` from `validador_csv.py`: keep digits only. -/
def corrigir_telefone (v : Str) : Str := digitsOf v

/-- The postal-code correction rule as worded by the specification: strip
non-digits; with 1–7 digits left-pad to 8; with exactly 8 digits format as
`NNNNN-NNN`; otherwise return the input unchanged. -/
def corrigirCepSpec (v : Str) : Str :=
  let d := digitsOf v
  if 1 ≤ d.length ∧ d.length ≤ 8 then
    (zfill8 d).take 5 ++ ('-' :: (zfill8 d).drop 5)
  else v

theorem zfill8_length (d : Str) : (zfill8 d).length = max 8 d.length := by
  simp [zfill8]
  omega

theorem zfill8_of_length_ge (d : Str) (h : 8 ≤ d.length) : zfill8 d = d := by
  simp [zfill8, Nat.sub_eq_zero_of_le h]

/-- Claim C5: for every input string, the postal-code correction first strips
non-digits, left-pads a 1–7 digit result with zeros to 8 digits, returns an
8-digit result hyphenated as `NNNNN-NNN`, and otherwise (0 digits or more than
8 digits) returns the input unchanged; in particular `"01310100"` maps to
`"01310-100"` and `"1234567"` maps to `"01234-567"`. -/
theorem c5_corrige_cep :
    (∀ v : Str, tentar_corrigir_cep v = corrigirCepSpec v)
    ∧ tentar_corrigir_cep (("01310100" : String).data) = ("01310-100" : String).data
    ∧ tentar_corrigir_cep (("1234567" : String).data) = ("01234-567" : String).data := by
  refine ⟨fun v => ?_, by decide, by decide⟩
  simp only [tentar_corrigir_cep, corrigirCepSpec, cepPad]
  by_cases h1 : 1 ≤ (digitsOf v).length ∧ (digitsOf v).length < 8
  · have hlen : (zfill8 (digitsOf v)).length = 8 := by
      rw [zfill8_length]; omega
    rw [if_pos h1, if_pos hlen, if_pos ⟨h1.1, Nat.le_of_lt h1.2⟩]
  · rw [if_neg h1]
    by_cases h2 : (digitsOf v).length = 8
    · rw [if_pos h2, if_pos ⟨by omega, by omega⟩,
        zfill8_of_length_ge (digitsOf v) (by omega)]
    · rw [if_neg h2, if_neg (by omega)]

theorem digitsOf_digitsOf (v : Str) : digitsOf (digitsOf v) = digitsOf v := by
  simp [digitsOf, List.filter_filter]

theorem digitsOf_append (a b : Str) : digitsOf (a ++ b) = digitsOf a ++ digitsOf b := by
  simp [digitsOf]

theorem tcc_of_digits8 (v : Str) (h : (digitsOf v).length = 8) :
    tentar_corrigir_cep v = (digitsOf v).take 5 ++ ('-' :: (digitsOf v).drop 5) := by
  have hp : cepPad (digitsOf v) = digitsOf v := by
    simp only [cepPad]
    rw [if_neg (by omega)]
  simp only [tentar_corrigir_cep, hp]
  rw [if_pos h]

/-- Claim C8: the postal-code correction is idempotent on every value carrying
exactly 8 digits. -/
theorem c8_cep_idempotente (v : Str) (h : (digitsOf v).length = 8) :
    tentar_corrigir_cep (tentar_corrigir_cep v) = tentar_corrigir_cep v := by
  have hv := tcc_of_digits8 v h
  have hdig : digitsOf (tentar_corrigir_cep v) = digitsOf v := by
    rw [hv, digitsOf_append]
    have htake : digitsOf ((digitsOf v).take 5) = (digitsOf v).take 5 := by
      apply List.filter_eq_self.mpr
      intro c hc
      exact List.of_mem_filter (List.mem_of_mem_take hc)
    have hdrop : digitsOf ('-' :: (digitsOf v).drop 5) = (digitsOf v).drop 5 := by
      show List.filter Char.isDigit ('-' :: (digitsOf v).drop 5) = (digitsOf v).drop 5
      rw [List.filter_cons_of_neg (by decide)]
      apply List.filter_eq_self.mpr
      intro c hc
      exact List.of_mem_filter (List.mem_of_mem_drop hc)
    rw [htake, hdrop, List.take_append_drop]
  rw [tcc_of_digits8 (tentar_corrigir_cep v) (by rw [hdig, h]), hdig, ← hv]

theorem c8_cep_idempotente_witness :
    ((digitsOf (("01310-100" : String).data)).length = 8)
    ∧ tentar_corrigir_cep (tentar_corrigir_cep (("01310-100" : String).data))
        = tentar_corrigir_cep (("01310-100" : String).data) :=
  ⟨by decide, c8_cep_idempotente (("01310-100" : String).data) (by decide)⟩

/-! ### Association lists modelling Python dictionaries -/

/-- Lookup `m.get(k)` on a Python dict represented as an insertion-ordered list. -/
def dlookup {β : Type} (k : Str) : List (Str × β) → Option β
  | [] => none
  | p :: rest => if p.1 = k then some p.2 else dlookup k rest

/-- Lookup `m.get(k, "")` with an empty-string default. -/
def dget (m : List (Str × Str)) (k : Str) : Str := (dlookup k m).getD []

/-- Assignment `m[k] = v` on a Python dict: an existing key keeps its position, a new key
is appended at the end. -/
def dinsert (m : List (Str × Str)) (k v : Str) : List (Str × Str) :=
  if (dlookup k m).isSome then
    m.map (fun p => if p.1 = k then (k, v) else p)
  else m ++ [(k, v)]

/-- The key list of a dict. -/
def chaves {β : Type} (m : List (Str × β)) : List Str := m.map Prod.fst

theorem dlookup_append {β : Type} (k : Str) (m l : List (Str × β)) :
    dlookup k (m ++ l) =
      (match dlookup k m with
       | some w => some w
       | none => dlookup k l) := by
  induction m with
  | nil => simp [dlookup]
  | cons p rest ih =>
    by_cases hp : p.1 = k
    · simp [dlookup, hp]
    · simp [dlookup, hp, ih]

theorem dlookup_map_replace (m : List (Str × Str)) (k v k2 : Str) :
    dlookup k2 (m.map (fun p => if p.1 = k then (k, v) else p)) =
      if k2 = k then (dlookup k m).map (fun _ => v) else dlookup k2 m := by
  induction m with
  | nil =>
    by_cases hk : k2 = k <;> simp [dlookup, hk]
  | cons p rest ih =>
    by_cases hp : p.1 = k
    · by_cases hk : k2 = k
      · subst hk
        simp [dlookup, hp, ih]
      · have hne : ¬ (k = k2) := fun hh => hk hh.symm
        have hne2 : ¬ (p.1 = k2) := by rw [hp]; exact hne
        simp [dlookup, hp, hne, hne2, ih, hk]
    · by_cases hpk : p.1 = k2
      · have hk : ¬ (k2 = k) := by
          intro hh
          exact hp (by rw [hpk, hh])
        simp [dlookup, hp, hpk, hk]
      · simp [dlookup, hp, hpk, ih]

theorem dlookup_dinsert (m : List (Str × Str)) (k v k2 : Str) :
    dlookup k2 (dinsert m k v) = if k2 = k then some v else dlookup k2 m := by
  unfold dinsert
  by_cases hs : (dlookup k m).isSome = true
  · rcases Option.isSome_iff_exists.mp hs with ⟨w, hw⟩
    rw [if_pos hs, dlookup_map_replace, hw]
    by_cases hk : k2 = k
    · rw [if_pos hk, if_pos hk]
      rfl
    · rw [if_neg hk, if_neg hk]
  · rw [if_neg hs, dlookup_append]
    have hnone : dlookup k m = none := Option.not_isSome_iff_eq_none.mp hs
    by_cases hk : k2 = k
    · subst hk
      rw [hnone]
      show dlookup k2 [(k2, v)] = if k2 = k2 then some v else none
      rw [if_pos rfl]
      show (if k2 = k2 then some v else none) = some v
      rw [if_pos rfl]
    · have hne : ¬ (k = k2) := fun hh => hk hh.symm
      rw [if_neg hk]
      cases hm : dlookup k2 m with
      | some w => rfl
      | none =>
        show dlookup k2 [(k, v)] = none
        simp [dlookup, hne]

theorem key_mem_chaves {β : Type} {m : List (Str × β)} {k : Str} {w : β}
    (h : (k, w) ∈ m) : k ∈ chaves m :=
  List.mem_map_of_mem Prod.fst h

theorem dlookup_eq_none_iff {β : Type} (k : Str) (m : List (Str × β)) :
    dlookup k m = none ↔ k ∉ chaves m := by
  induction m with
  | nil =>
    constructor
    · intro _ hmem
      cases hmem
    · intro _
      rfl
  | cons p rest ih =>
    have hch : chaves (p :: rest) = p.1 :: chaves rest := rfl
    show (if p.1 = k then some p.2 else dlookup k rest) = none ↔ k ∉ chaves (p :: rest)
    by_cases hp : p.1 = k
    · rw [if_pos hp]
      constructor
      · intro hcontr
        cases hcontr
      · intro hnot
        exact absurd (by rw [hch, hp]; exact List.mem_cons_self k (chaves rest)) hnot
    · rw [if_neg hp, hch, ih]
      constructor
      · intro hkr hmem
        rcases List.mem_cons.mp hmem with he | hm2
        · exact hp he.symm
        · exact hkr hm2
      · intro hkc hm2
        exact hkc (List.mem_cons_of_mem _ hm2)

theorem chaves_map_replace (m : List (Str × Str)) (k v : Str) :
    chaves (m.map (fun p => if p.1 = k then (k, v) else p)) = chaves m := by
  simp only [chaves, List.map_map]
  apply List.map_congr_left
  intro p _
  by_cases hp : p.1 = k <;> simp [hp]

theorem chaves_dinsert (m : List (Str × Str)) (k v : Str) :
    chaves (dinsert m k v) = if (dlookup k m).isSome then chaves m else chaves m ++ [k] := by
  by_cases hs : (dlookup k m).isSome
  · simp only [dinsert, hs, if_true]
    rw [chaves_map_replace]
  · simp [dinsert, hs, chaves]

theorem nodup_dinsert (m : List (Str × Str)) (k v : Str) (h : (chaves m).Nodup) :
    (chaves (dinsert m k v)).Nodup := by
  rw [chaves_dinsert]
  by_cases hs : (dlookup k m).isSome
  · simpa [hs] using h
  · have hnm : k ∉ chaves m :=
      (dlookup_eq_none_iff k m).mp (Option.not_isSome_iff_eq_none.mp hs)
    simp only [hs, if_false]
    simp [List.nodup_append, h, hnm]

theorem mem_iff_dlookup {β : Type} (m : List (Str × β)) (k : Str) (w : β)
    (h : (chaves m).Nodup) : (k, w) ∈ m ↔ dlookup k m = some w := by
  induction m with
  | nil =>
    constructor
    · intro hx
      cases hx
    · intro hx
      cases hx
  | cons p rest ih =>
    have hch : chaves (p :: rest) = p.1 :: chaves rest := rfl
    obtain ⟨hhead, hrest⟩ := List.nodup_cons.mp (by rw [hch] at h; exact h)
    show (k, w) ∈ p :: rest ↔ (if p.1 = k then some p.2 else dlookup k rest) = some w
    by_cases hp : p.1 = k
    · rw [if_pos hp]
      constructor
      · intro hmem
        rcases List.mem_cons.mp hmem with he | hm2
        · rw [← he]
        · exact absurd (key_mem_chaves hm2) (hp ▸ hhead)
      · intro hl
        have hw : p.2 = w := Option.some.inj hl
        have hpe : p = (k, w) := by
          cases p with
          | mk a b =>
            cases hp
            cases hw
            rfl
        rw [hpe]
        exact List.mem_cons_self (k, w) rest
    · rw [if_neg hp, ← ih hrest]
      constructor
      · intro hmem
        rcases List.mem_cons.mp hmem with he | hm2
        · exact absurd (congrArg Prod.fst he.symm) hp
        · exact hm2
      · exact fun hm2 => List.mem_cons_of_mem p hm2

/-! ### Properties of `strip` -/

/-- Right-hand side trimming, so that `strip s = rstripWs (lstripWs s)`. -/
def rstripWs (s : Str) : Str := (s.reverse.dropWhile Char.isWhitespace).reverse

theorem strip_eq_rstrip_lstrip (s : Str) : strip s = rstripWs (lstripWs s) := rfl

theorem dropWhile_same {α : Type} (p : α → Bool) (l : List α) :
    (l.dropWhile p).dropWhile p = l.dropWhile p := by
  induction l with
  | nil => rfl
  | cons a l ih =>
    by_cases h : p a <;> simp [List.dropWhile_cons, h, ih]

theorem lstripWs_lstripWs (s : Str) : lstripWs (lstripWs s) = lstripWs s :=
  dropWhile_same Char.isWhitespace s

theorem rstripWs_rstripWs (s : Str) : rstripWs (rstripWs s) = rstripWs s := by
  simp only [rstripWs, List.reverse_reverse]
  rw [dropWhile_same]

theorem rstripWs_prefix (s : Str) : rstripWs s <+: s := by
  have h1 : s.reverse.dropWhile Char.isWhitespace <:+ s.reverse := List.dropWhile_suffix _
  have h2 := List.reverse_prefix.mpr h1
  rwa [List.reverse_reverse] at h2

theorem head_not_ws_of_lstripWs (s : Str) (a : Char) (t : Str)
    (h : lstripWs s = a :: t) : ¬ a.isWhitespace = true := by
  induction s with
  | nil => cases h
  | cons b l ih =>
    by_cases hb : b.isWhitespace
    · rw [lstripWs, List.dropWhile_cons, if_pos hb] at h
      exact ih h
    · rw [lstripWs, List.dropWhile_cons, if_neg hb] at h
      cases h
      exact hb

theorem lstripWs_of_head_not_ws (a : Char) (t : Str) (h : ¬ a.isWhitespace = true) :
    lstripWs (a :: t) = a :: t := by
  rw [lstripWs, List.dropWhile_cons, if_neg h]

theorem lstripWs_rstripWs_lstripWs (s : Str) :
    lstripWs (rstripWs (lstripWs s)) = rstripWs (lstripWs s) := by
  cases hw : lstripWs s with
  | nil => rfl
  | cons a t =>
    have hna : ¬ a.isWhitespace = true := head_not_ws_of_lstripWs s a t hw
    rcases rstripWs_prefix (a :: t) with ⟨u, hu⟩
    cases hr : rstripWs (a :: t) with
    | nil => rfl
    | cons b r =>
      have hb : b = a := by
        rw [hr] at hu
        cases hu
        rfl
      rw [hb]
      exact lstripWs_of_head_not_ws a r hna

theorem strip_strip (s : Str) : strip (strip s) = strip s := by
  rw [strip_eq_rstrip_lstrip, strip_eq_rstrip_lstrip s,
    lstripWs_rstripWs_lstripWs, rstripWs_rstripWs]

/-! ### Canonical schema and validation rules -/

def cCEP : Str := ("CEP" : String).data

/-- Constant `EXPECTED_HEADER` from `validador_csv.py`. -/
def EXPECTED_HEADER : List Str :=
  [("NOME" : String).data, ("EMPRESA" : String).data, ("CPF" : String).data,
   ("CEP" : String).data, ("ENDERECO" : String).data, ("NUMERO" : String).data,
   ("COMPLEMENTO" : String).data, ("BAIRRO" : String).data, ("CIDADE" : String).data,
   ("UF" : String).data, ("AOS_CUIDADOS" : String).data, ("NOTA_FISCAL" : String).data,
   ("SERVICO" : String).data, ("SERV_ADICIONAIS" : String).data,
   ("VALOR_DECLARADO" : String).data, ("OBSERVAÇÕES" : String).data,
   ("CONTEUDO" : String).data, ("DDD" : String).data, ("TELEFONE" : String).data,
   ("EMAIL" : String).data, ("CHAVE" : String).data, ("PESO" : String).data,
   ("ALTURA" : String).data, ("LARGURA" : String).data, ("COMPRIMENTO" : String).data,
   ("ENTREGA_VIZINHO" : String).data, ("RFID" : String).data]

/-- Constant `COLUNAS_OBRIGATORIAS` from `validador_csv.py` (a Python set; only
membership is ever used). -/
def COLUNAS_OBRIGATORIAS : List Str :=
  [("NOME" : String).data, ("CEP" : String).data, ("ENDERECO" : String).data,
   ("NUMERO" : String).data, ("BAIRRO" : String).data, ("CIDADE" : String).data,
   ("UF" : String).data]

/-- Matcher for `re.match(r"^\d{5}-\d{3}$", v)`. -/
def matchesCEP (v : Str) : Bool :=
  match v with
  | [a, b, c, d, e, hy, x, y, z] =>
    [a, b, c, d, e].all Char.isDigit && (hy == '-') && [x, y, z].all Char.isDigit
  | _ => false

/-- Matcher for `re.match(r"^\d{10,11}$", v)`. -/
def matchesTelefone (v : Str) : Bool :=
  v.all Char.isDigit && (v.length == 10 || v.length == 11)

/-- Matcher for `re.match(REGEX_CPF, v)`: dotted CPF or 11 bare digits. -/
def matchesCPF (v : Str) : Bool :=
  (match v with
   | [a, b, c, p1, d, e, f, p2, g, h, i, hy, j, k] =>
     [a, b, c, d, e, f, g, h, i, j, k].all Char.isDigit
       && (p1 == '.') && (p2 == '.') && (hy == '-')
   | _ => false)
  || (v.length == 11 && v.all Char.isDigit)

/-- Matcher for `re.match(REGEX_CNPJ, v)`: formatted CNPJ or 14 bare digits. -/
def matchesCNPJ (v : Str) : Bool :=
  (match v with
   | [a, b, p1, c, d, e, p2, f, g, h, sl, i, j, k, l, hy, m, n] =>
     [a, b, c, d, e, f, g, h, i, j, k, l, m, n].all Char.isDigit
       && (p1 == '.') && (p2 == '.') && (sl == '/') && (hy == '-')
   | _ => false)
  || (v.length == 14 && v.all Char.isDigit)

/-- Split a list at the first occurrence of `c`. -/
def splitFirst (c : Char) : Str → Option (Str × Str)
  | [] => none
  | x :: xs =>
    if x = c then some ([], xs)
    else (splitFirst c xs).map (fun p => (x :: p.1, p.2))

/-- Split a list at the last occurrence of `c`. -/
def splitLast (c : Char) (s : Str) : Option (Str × Str) :=
  match splitFirst c s.reverse with
  | none => none
  | some p => some (p.2.reverse, p.1.reverse)

def classeLocal (c : Char) : Bool :=
  c.isAlphanum || c == '.' || c == '_' || c == '%' || c == '+' || c == '-'

def classeDominio (c : Char) : Bool := c.isAlphanum || c == '.' || c == '-'

/-- Matcher for `re.match(REGEX_EMAIL, v)`.  The anchored regex
`^[A-Za-z0-9._%+-]+@[A-Za-z0-9.-]+\.[A-Za-z]{2,}$` matches exactly when the
string splits at its first `@` into a nonempty local part over the local class
and a domain that splits at its last `.` into a nonempty domain part over the
domain class and a 2+-letter alphabetic tail. -/
def matchesEmail (v : Str) : Bool :=
  match splitFirst '@' v with
  | none => false
  | some (loc, resto) =>
    (decide (loc ≠ [])) && loc.all classeLocal &&
    (match splitLast '.' resto with
     | none => false
     | some (dom, tld) =>
       (decide (dom ≠ [])) && dom.all classeDominio
         && (decide (2 ≤ tld.length)) && tld.all Char.isAlpha)

/-- Boolean prefix test. -/
def ehPrefixoDe : Str → Str → Bool
  | [], _ => true
  | _ :: _, [] => false
  | a :: xs, b :: ys => (a == b) && ehPrefixoDe xs ys

/-- Python `sub in s` on strings: `sub` occurs contiguously inside `s`. -/
def contemTrecho (sub : Str) : Str → Bool
  | [] => ehPrefixoDe sub []
  | b :: rest => ehPrefixoDe sub (b :: rest) || contemTrecho sub rest

/-- One entry of `VALIDATION_RULES`: an optional correction function, an
optional validation predicate and the failure message. -/
structure Regra where
  correcao : Option (Str → Str)
  validacao : Option (Str → Bool)
  msg : Str

/-- Table `VALIDATION_RULES` from `validador_csv.py`, in dictionary order. -/
def VALIDATION_RULES : List (Str × Regra) :=
  [(("NOME" : String).data,
    ⟨none, some (fun v => decide (v.length ≤ 100)), ("Excede 100 caracteres." : String).data⟩),
   (("CEP" : String).data,
    ⟨some tentar_corrigir_cep, some matchesCEP, ("Formato inválido. Use NNNNN-NNN." : String).data⟩),
   (("TELEFONE" : String).data,
    ⟨some corrigir_telefone, some matchesTelefone, ("Deve ter 10 ou 11 dígitos." : String).data⟩),
   (("CPF" : String).data,
    ⟨some tentar_corrigir_cpf_cnpj, some (fun v => matchesCPF v || matchesCNPJ v),
     ("Formato de CPF/CNPJ inválido." : String).data⟩),
   (("EMAIL" : String).data,
    ⟨none, some matchesEmail, ("Formato de e-mail inválido." : String).data⟩)]

/-! ### Report entry types -/

inductive Fonte where
  | Limpeza
  | Formato
  | API
deriving DecidableEq

/-- One entry of `correcoes_totais`. -/
structure Correcao where
  linha : Nat
  coluna : Str
  original : Str
  corrigido : Str
  fonte : Fonte
deriving DecidableEq

/-- One entry of `erros_totais`. -/
structure RowError where
  linha : Nat
  coluna : Str
  mensagem : Str
deriving DecidableEq

/-- One per-row warning `f"Linha {i}, CEP {cep}: {erro}"`; the components of
the formatted message are kept as fields. -/
structure AvisoLinha where
  linha : Nat
  cep : Str
  erro : Str
deriving DecidableEq

/-! ### The postal lookup service `consultar_apis_cep` -/

/-- The `{logradouro, bairro, cidade, uf}` fragment produced by the provider
parsers. -/
structure Endereco where
  logradouro : Str
  bairro : Str
  cidade : Str
  uf : Str
deriving DecidableEq

/-- The `(data, error)` pair cached per postal code. -/
abbrev CepResult := Option Endereco × Option Str

/-- The observable outcome of one provider call inside the loop of
`consultar_apis_cep`: an HTTP 404; a parse into a payload with no (truthy)
error flag; a parse whose adapter reported a (truthy) error string; a
`requests` exception; or a JSON decoding error. -/
inductive ProviderOutcome where
  | notFound404
  | success (dados : Endereco)
  | parsedError (err : Str)
  | requestError (msg : Str)
  | jsonError
deriving DecidableEq

def ProviderOutcome.ehSucesso : ProviderOutcome → Bool
  | .success _ => true
  | _ => false

def msgFormatoInvalido : Str := ("Formato de CEP inválido para API." : String).data

def msgNaoEncontradoUnificado : Str :=
  ("CEP não encontrado. Verifique o número ou consulte o site dos Correios." : String).data

def msgNaoEncontradoSimples : Str := ("CEP não encontrado." : String).data

def respostaInvalida : Str := ("Resposta inválida" : String).data

def fragmentoNaoEncontrado : Str := ("não encontrado" : String).data

/-- Diagnostic text `f"({provider['name']}: {err})"`. -/
def mkDiag (name e : Str) : Str := ('(' :: name) ++ (':' :: ' ' :: e) ++ [')']

/-- Join `' | '.join(errors)`, used prefixed by the failure text. -/
def joinSep (sep : Str) : List Str → Str
  | [] => []
  | [x] => x
  | x :: y :: xs => x ++ sep ++ joinSep sep (y :: xs)

def msgFalhaConsulta (errors : List Str) : Str :=
  ("Falha na consulta. Detalhes: " : String).data ++ joinSep ((" | " : String).data) errors

def API_PROVIDER_NAMES : List Str :=
  [("BrasilAPI" : String).data, ("OpenCEP" : String).data,
   ("Postmon" : String).data, ("ViaCEP" : String).data]

/-- The provider loop of `consultar_apis_cep`, carrying the `errors` list and
the `not_found_count` tally. -/
def consultarLoop : List (Str × ProviderOutcome) → List Str → Nat → CepResult
  | [], errors, nf =>
    if 2 ≤ nf then (none, some msgNaoEncontradoUnificado)
    else if errors ≠ [] then (none, some (msgFalhaConsulta errors))
    else (none, some msgNaoEncontradoSimples)
  | (name, o) :: rest, errors, nf =>
    match o with
    | ProviderOutcome.notFound404 => consultarLoop rest errors (nf + 1)
    | ProviderOutcome.success d => (some d, none)
    | ProviderOutcome.parsedError e =>
      consultarLoop rest (errors ++ [mkDiag name e])
        (if contemTrecho fragmentoNaoEncontrado (lowerStr e) then nf + 1 else nf)
    | ProviderOutcome.requestError e => consultarLoop rest (errors ++ [mkDiag name e]) nf
    | ProviderOutcome.jsonError => consultarLoop rest (errors ++ [mkDiag name respostaInvalida]) nf

/-- The list of `(provider name, outcome)` pairs actually traversed, the
network environment being abstracted as a map from provider position to
outcome. -/
def provList (env : Nat → ProviderOutcome) : List (Str × ProviderOutcome) :=
  (API_PROVIDER_NAMES.enum).map (fun p => (p.2, env p.1))

/-- Function `consultar_apis_cep` from `validador_csv.py`: reject a value that is not
exactly 8 digits, then walk the four providers in order. -/
def consultar_apis_cep (cep : Str) (env : Nat → ProviderOutcome) : CepResult :=
  if cep.length = 8 ∧ cep.all Char.isDigit then
    consultarLoop (provList env) [] 0
  else (none, some msgFormatoInvalido)

/-- The final value of `not_found_count` contributed by one outcome. -/
def outcomeTally : ProviderOutcome → Nat
  | ProviderOutcome.notFound404 => 1
  | ProviderOutcome.parsedError e =>
    if contemTrecho fragmentoNaoEncontrado (lowerStr e) then 1 else 0
  | _ => 0

/-- The diagnostics contributed by one outcome. -/
def outcomeDiags : Str → ProviderOutcome → List Str
  | _, ProviderOutcome.notFound404 => []
  | _, ProviderOutcome.success _ => []
  | name, ProviderOutcome.parsedError e => [mkDiag name e]
  | name, ProviderOutcome.requestError e => [mkDiag name e]
  | name, ProviderOutcome.jsonError => [mkDiag name respostaInvalida]

def tallyOf : List (Str × ProviderOutcome) → Nat
  | [] => 0
  | p :: rest => outcomeTally p.2 + tallyOf rest

def diagsOf : List (Str × ProviderOutcome) → List Str
  | [] => []
  | p :: rest => outcomeDiags p.1 p.2 ++ diagsOf rest

/-! ### Header mapping and the pre-warm phase -/

/-- Row-mapping rule (line `col_sistema = (header_map or {}).get(col_orig,
mapa_auto.get(col_orig.upper()))`): an explicit override wins, otherwise the
uppercased name must be canonical. -/
def mapCol (header_map : List (Str × Str)) (col : Str) : Option Str :=
  match dlookup col header_map with
  | some v => some v
  | none => if (upperStr col) ∈ EXPECTED_HEADER then some (upperStr col) else none

/-- Output-projection rule (line `(header_map or {h: h for h in
EXPECTED_HEADER}).get(nome_col_original, nome_col_original.upper())`). -/
def projMap (header_map : List (Str × Str)) (nome : Str) : Str :=
  let base := if header_map = [] then EXPECTED_HEADER.map (fun h => (h, h)) else header_map
  (dlookup nome base).getD (upperStr nome)

/-- The loop body of step 1 of the row pipeline, iterating the row's items in
order over the accumulating `valores_proc` dict. -/
def mapearLinhaAux (header_map : List (Str × Str)) :
    List (Str × Str) → List (Str × Str) → List (Str × Str)
  | [], acc => acc
  | p :: rest, acc =>
    mapearLinhaAux header_map rest
      (if p.1 = [] then acc
       else
         match mapCol header_map p.1 with
         | some cs => if cs = [] then acc else dinsert acc cs p.2
         | none => acc)

/-- Step 1 of the row pipeline: build `valores_proc` from the raw row,
skipping empty column names and unmapped or falsy-mapped columns. -/
def mapearLinha (header_map : List (Str × Str)) (linha : List (Str × Str)) :
    List (Str × Str) :=
  mapearLinhaAux header_map linha []

/-- Expression `next((k for k, v in (header_map or {}).items() if v == "CEP"), "CEP")`. -/
def colunaCepArquivo (header_map : List (Str × Str)) : Str :=
  match header_map.find? (fun p => decide (p.2 = cCEP)) with
  | some p => p.1
  | none => cCEP

/-- The pre-warm phase of `validar_csv` under `usar_api`: the distinct postal
codes collected from the designated raw column (stripped, at least 7 digits,
zero-filled to 8), paired with the flag telling whether the "postal column
absent" warning was appended instead. -/
def preAquecerCeps (header_map : List (Str × Str)) (cabecalho : List Str)
    (linhas : List (List (Str × Str))) : List Str × Bool :=
  let col := colunaCepArquivo header_map
  if col ∈ cabecalho then
    (((((linhas.map (fun l => strip (dget l col))).dedup).filter
        (fun c2 => decide (7 ≤ (digitsOf c2).length))).map
        (fun c2 => zfill8 (digitsOf c2))).dedup, false)
  else ([], true)

/-- The cache built by the worker pool: one `consultar_apis_cep` result per
distinct admitted code. -/
def montarCepCache (ceps : List Str) (env : Nat → ProviderOutcome) :
    List (Str × CepResult) :=
  ceps.map (fun c2 => (c2, consultar_apis_cep c2 env))

/-! ### The row pipeline of `validar_csv` -/

/-- The sanitization applied to each mapped value: trim, drop `'"'`, turn `';'`
into a space, collapse whitespace runs, trim again. -/
def removeAspas (v : Str) : Str := v.filter (fun c2 => !(c2 == '"'))

def trocaPontoVirgula (v : Str) : Str := v.map (fun c2 => if c2 = ';' then ' ' else c2)

def sanitizeVal (v : Str) : Str :=
  strip (collapseWs (trocaPontoVirgula (removeAspas (strip v))))

/-- Step 2 of the row pipeline: sanitize every mapped value, recording a
`Limpeza` correction whenever the trimmed original differs from the sanitized
result (the dict iteration over the distinct keys of `valores_proc` is the
list traversal). -/
def sanitizarValores (i : Nat) : List (Str × Str) → List (Str × Str) × List Correcao
  | [] => ([], [])
  | p :: rest =>
    let vo := strip p.2
    let vs := strip (collapseWs (trocaPontoVirgula (removeAspas vo)))
    let r := sanitizarValores i rest
    ((p.1, vs) :: r.1,
     (if vo ≠ vs then [⟨i, p.1, vo, vs, Fonte.Limpeza⟩] else []) ++ r.2)

/-- Step 4 of the row pipeline: walk `VALIDATION_RULES` in order and apply the
correction of each rule that has one to a present key. -/
def aplicarFormatoAux (i : Nat) :
    List (Str × Regra) → List (Str × Str) → List Correcao →
    List (Str × Str) × List Correcao
  | [], m, cs => (m, cs)
  | (col, regra) :: rest, m, cs =>
    match regra.correcao with
    | none => aplicarFormatoAux i rest m cs
    | some f =>
      match dlookup col m with
      | none => aplicarFormatoAux i rest m cs
      | some val =>
        aplicarFormatoAux i rest (dinsert m col (f val))
          (cs ++ (if val ≠ f val then [⟨i, col, val, f val, Fonte.Formato⟩] else []))

def aplicarFormato (i : Nat) (m : List (Str × Str)) : List (Str × Str) × List Correcao :=
  aplicarFormatoAux i VALIDATION_RULES m []

/-- The `mapa_api` table of step 5 as pairs of field projection and CSV key. -/
def CAMPOS_API : List ((Endereco → Str) × Str) :=
  [(Endereco.logradouro, ("ENDERECO" : String).data),
   (Endereco.bairro, ("BAIRRO" : String).data),
   (Endereco.cidade, ("CIDADE" : String).data),
   (Endereco.uf, ("UF" : String).data)]

/-- The overwrite loop of step 5: for each of the four address fields, compare
the stripped provider value case-insensitively with the stripped current value
and overwrite (recording an `API` correction) when it is nonempty and differs. -/
def aplicarApiAux (i : Nat) (dados : Endereco) :
    List ((Endereco → Str) × Str) → List (Str × Str) → List Correcao →
    List (Str × Str) × List Correcao
  | [], m, cs => (m, cs)
  | campo :: rest, m, cs =>
    let vApi := strip (campo.1 dados)
    let vCsv := strip (dget m campo.2)
    if vApi ≠ [] ∧ upperStr vApi ≠ upperStr vCsv then
      aplicarApiAux i dados rest (dinsert m campo.2 vApi)
        (cs ++ [⟨i, campo.2, vCsv, vApi, Fonte.API⟩])
    else aplicarApiAux i dados rest m cs

def aplicarApi (i : Nat) (m : List (Str × Str)) (dados : Endereco) :
    List (Str × Str) × List Correcao :=
  aplicarApiAux i dados CAMPOS_API m []

/-- Step 5 of the row pipeline: consult the cache for the digit-stripped CEP of
the format-corrected snapshot; a truthy cached error yields a per-row warning,
cached data yields the overwrite loop.  (The code indexes
`valores_com_tudo['CEP']` directly in the warning; in every state reachable
from `validar_csv` the cache hit guarantees the key is present, so `dget` is
used.) -/
def aplicarApiCache (usar_api : Bool) (cep_cache : List (Str × CepResult)) (i : Nat)
    (m : List (Str × Str)) : List (Str × Str) × List Correcao × List AvisoLinha :=
  if usar_api then
    match dlookup (digitsOf (dget m cCEP)) cep_cache with
    | none => (m, [], [])
    | some (dados, some e) =>
      if e = [] then
        match dados with
        | some d => ((aplicarApi i m d).1, (aplicarApi i m d).2, [])
        | none => (m, [], [])
      else (m, [], [⟨i, dget m cCEP, e⟩])
    | some (dados, none) =>
      match dados with
      | some d => ((aplicarApi i m d).1, (aplicarApi i m d).2, [])
      | none => (m, [], [])
  else (m, [], [])

/-- The check of step 6 for one `(col, val)` entry: a required empty value
yields the emptiness error, a nonempty value is checked against the rule
table's predicate if there is one. -/
def checarCampo (i : Nat) (col val : Str) : Option RowError :=
  if col ∈ COLUNAS_OBRIGATORIAS ∧ val = [] then
    some ⟨i, col, ("Campo obrigatório está vazio." : String).data⟩
  else if val ≠ [] then
    match dlookup col VALIDATION_RULES with
    | some regra =>
      match regra.validacao with
      | some pred => if pred val then none else some ⟨i, col, regra.msg⟩
      | none => none
    | none => none
  else none

/-- Step 6 of the row pipeline: validate the fully corrected snapshot, in
iteration order. -/
def validarValores (i : Nat) : List (Str × Str) → List RowError
  | [] => []
  | p :: rest => (checarCampo i p.1 p.2).toList ++ validarValores i rest

/-- Step 7 of the row pipeline, for one output column. -/
def projetarCampo (header_map : List (Str × Str)) (linha mvals : List (Str × Str))
    (nome : Str) : Str :=
  if projMap header_map nome ∈ EXPECTED_HEADER then dget mvals (projMap header_map nome)
  else dget linha nome

/-- Step 7 of the row pipeline: both output rows in original header order. -/
def projetarLinha (header_map : List (Str × Str)) (cabecalho : List Str)
    (linha mFmt mTudo : List (Str × Str)) : List Str × List Str :=
  (cabecalho.map (projetarCampo header_map linha mFmt),
   cabecalho.map (projetarCampo header_map linha mTudo))

/-- All the per-record observables of one iteration of the row loop of
`validar_csv`: the three value snapshots, the corrections, errors and warnings
appended for the row, and the two projected output rows. -/
structure RowResult where
  valoresProc : List (Str × Str)
  valoresFormato : List (Str × Str)
  valoresTudo : List (Str × Str)
  correcoes : List Correcao
  erros : List RowError
  avisos : List AvisoLinha
  linhaFormato : List Str
  linhaApi : List Str
deriving DecidableEq

/-- One iteration of the row loop of `validar_csv` (lines 146–217), for a row
that passed the all-empty skip test. -/
def processarLinha (header_map : List (Str × Str)) (cep_cache : List (Str × CepResult))
    (usar_api : Bool) (cabecalho : List Str) (i : Nat) (linha : List (Str × Str)) :
    RowResult :=
  let vp := mapearLinha header_map linha
  let san := sanitizarValores i vp
  let fmt := aplicarFormato i san.1
  let api := aplicarApiCache usar_api cep_cache i fmt.1
  let rows := projetarLinha header_map cabecalho linha fmt.1 api.1
  ⟨vp, fmt.1, api.1, san.2 ++ fmt.2 ++ api.2.1, validarValores i api.1,
   api.2.2, rows.1, rows.2⟩

/-- The all-empty skip test `not any(linha_dict.values())` of the row loop. -/
def linhaVazia (linha : List (Str × Str)) : Bool :=
  linha.all (fun p => p.2 == [])

/-! ### Exhaustion behaviour of the provider loop -/

/-- The value returned by `consultar_apis_cep` once every provider has been
tried. -/
def resultadoExaustao (errs : List Str) (nf : Nat) : CepResult :=
  if 2 ≤ nf then (none, some msgNaoEncontradoUnificado)
  else if errs ≠ [] then (none, some (msgFalhaConsulta errs))
  else (none, some msgNaoEncontradoSimples)

theorem resultadoExaustao_congr (e1 e2 : List Str) (n1 n2 : Nat)
    (he : e1 = e2) (hn : n1 = n2) :
    resultadoExaustao e1 n1 = resultadoExaustao e2 n2 := by
  rw [he, hn]

theorem consultarLoop_exhaust (l : List (Str × ProviderOutcome)) :
    ∀ (errs : List Str) (nf : Nat), (∀ p ∈ l, p.2.ehSucesso = false) →
      consultarLoop l errs nf = resultadoExaustao (errs ++ diagsOf l) (nf + tallyOf l) := by
  induction l with
  | nil =>
    intro errs nf _
    simp [consultarLoop, diagsOf, tallyOf, resultadoExaustao]
  | cons p rest ih =>
    intro errs nf hns
    obtain ⟨name, o⟩ := p
    have hrest : ∀ q ∈ rest, q.2.ehSucesso = false :=
      fun q hq => hns q (List.mem_cons_of_mem _ hq)
    have hhead := hns (name, o) (List.mem_cons_self _ _)
    cases o with
    | notFound404 =>
      show consultarLoop rest errs (nf + 1) = _
      rw [ih errs (nf + 1) hrest]
      exact resultadoExaustao_congr _ _ _ _
        (by simp [diagsOf, outcomeDiags])
        (by simp [tallyOf, outcomeTally]; omega)
    | success d =>
      exact absurd hhead (by simp [ProviderOutcome.ehSucesso])
    | parsedError e =>
      show consultarLoop rest (errs ++ [mkDiag name e])
          (if contemTrecho fragmentoNaoEncontrado (lowerStr e) then nf + 1 else nf) = _
      rw [ih _ _ hrest]
      refine resultadoExaustao_congr _ _ _ _
        (by simp [diagsOf, outcomeDiags]) ?_
      by_cases hc : contemTrecho fragmentoNaoEncontrado (lowerStr e) = true
      · simp [tallyOf, outcomeTally, hc]
        omega
      · simp [tallyOf, outcomeTally, hc]
    | requestError e =>
      show consultarLoop rest (errs ++ [mkDiag name e]) nf = _
      rw [ih _ _ hrest]
      exact resultadoExaustao_congr _ _ _ _
        (by simp [diagsOf, outcomeDiags])
        (by simp [tallyOf, outcomeTally])
    | jsonError =>
      show consultarLoop rest (errs ++ [mkDiag name respostaInvalida]) nf = _
      rw [ih _ _ hrest]
      exact resultadoExaustao_congr _ _ _ _
        (by simp [diagsOf, outcomeDiags])
        (by simp [tallyOf, outcomeTally])

theorem tally_of_all404 (l : List (Str × ProviderOutcome))
    (hns : ∀ p ∈ l, p.2.ehSucesso = false) (hd : diagsOf l = []) :
    tallyOf l = l.length := by
  induction l with
  | nil => rfl
  | cons p rest ih =>
    obtain ⟨name, o⟩ := p
    have hsplit : outcomeDiags name o = [] ∧ diagsOf rest = [] := by
      have : outcomeDiags name o ++ diagsOf rest = [] := hd
      exact List.append_eq_nil.mp this
    have hrest : ∀ q ∈ rest, q.2.ehSucesso = false :=
      fun q hq => hns q (List.mem_cons_of_mem _ hq)
    have hhead := hns (name, o) (List.mem_cons_self _ _)
    cases o with
    | notFound404 =>
      show 1 + tallyOf rest = rest.length + 1
      rw [ih hrest hsplit.2]
      omega
    | success d => exact absurd hhead (by simp [ProviderOutcome.ehSucesso])
    | parsedError e => exact absurd hsplit.1 (by simp [outcomeDiags])
    | requestError e => exact absurd hsplit.1 (by simp [outcomeDiags])
    | jsonError => exact absurd hsplit.1 (by simp [outcomeDiags])

theorem provList_eq (env : Nat → ProviderOutcome) :
    provList env =
      [(("BrasilAPI" : String).data, env 0), (("OpenCEP" : String).data, env 1),
       (("Postmon" : String).data, env 2), (("ViaCEP" : String).data, env 3)] := rfl

/-- Claim C3: when an 8-digit code exhausts every provider without a successful
parse, the result is the unified "not found" outcome when the not-found tally
reaches 2, and otherwise the unified failure outcome concatenating all
collected diagnostics; in particular all four providers answering HTTP 404
yields the unified "not found" outcome. -/
theorem c3_exaustao_provedores :
    (∀ (cep : Str) (env : Nat → ProviderOutcome),
      cep.length = 8 → cep.all Char.isDigit = true →
      (∀ j, j < 4 → (env j).ehSucesso = false) →
      consultar_apis_cep cep env =
        (if 2 ≤ tallyOf (provList env) then (none, some msgNaoEncontradoUnificado)
         else (none, some (msgFalhaConsulta (diagsOf (provList env))))))
    ∧ consultar_apis_cep (("01310100" : String).data) (fun _ => ProviderOutcome.notFound404)
        = (none, some msgNaoEncontradoUnificado) := by
  constructor
  · intro cep env h8 hdig hns
    have hplns : ∀ p ∈ provList env, p.2.ehSucesso = false := by
      intro p hp
      rw [provList_eq] at hp
      simp only [List.mem_cons, List.not_mem_nil, or_false] at hp
      rcases hp with hp | hp | hp | hp
      · rw [hp]; exact hns 0 (by omega)
      · rw [hp]; exact hns 1 (by omega)
      · rw [hp]; exact hns 2 (by omega)
      · rw [hp]; exact hns 3 (by omega)
    unfold consultar_apis_cep
    rw [if_pos ⟨h8, hdig⟩, consultarLoop_exhaust (provList env) [] 0 hplns]
    unfold resultadoExaustao
    by_cases ht : 2 ≤ 0 + tallyOf (provList env)
    · rw [if_pos ht, if_pos (by omega : 2 ≤ tallyOf (provList env))]
    · have hd : diagsOf (provList env) ≠ [] := by
        intro hde
        have hlen : tallyOf (provList env) = (provList env).length :=
          tally_of_all404 (provList env) hplns hde
        have hlen2 : (provList env).length = 4 := by
          rw [provList_eq]
          rfl
        omega
      rw [if_neg ht, if_neg (by omega : ¬ 2 ≤ tallyOf (provList env)),
        if_pos (by simpa using hd), List.nil_append]
  · decide

theorem c3_exaustao_provedores_witness :
    consultar_apis_cep (("01310100" : String).data) (fun _ => ProviderOutcome.notFound404) =
      (if 2 ≤ tallyOf (provList (fun _ => ProviderOutcome.notFound404))
       then (none, some msgNaoEncontradoUnificado)
       else (none, some (msgFalhaConsulta (diagsOf (provList (fun _ => ProviderOutcome.notFound404)))))) :=
  c3_exaustao_provedores.1 (("01310100" : String).data) (fun _ => ProviderOutcome.notFound404)
    (by decide) (by decide) (fun j hj => rfl)

/-- Claim C4 (amended): an HTTP 404 increments the not-found tally and advances
to the next provider without recording any diagnostic, but a parsed "not
found" flag in the response body increments the tally AND appends the
provider's diagnostic to the error list before advancing. -/
theorem c4_sinal_nao_encontrado (name : Str) (rest : List (Str × ProviderOutcome))
    (errs : List Str) (nf : Nat) :
    consultarLoop ((name, ProviderOutcome.notFound404) :: rest) errs nf
        = consultarLoop rest errs (nf + 1)
    ∧ consultarLoop
          ((name, ProviderOutcome.parsedError (("CEP não encontrado" : String).data)) :: rest)
          errs nf
        = consultarLoop rest
            (errs ++ [mkDiag name (("CEP não encontrado" : String).data)]) (nf + 1) := by
  constructor
  · rfl
  · show consultarLoop rest (errs ++ [mkDiag name (("CEP não encontrado" : String).data)])
        (if contemTrecho fragmentoNaoEncontrado
            (lowerStr (("CEP não encontrado" : String).data)) then nf + 1 else nf) = _
    rw [if_pos (by decide)]

def c4env : Nat → ProviderOutcome :=
  fun j =>
    if j = 0 then ProviderOutcome.parsedError (("CEP não encontrado" : String).data)
    else ProviderOutcome.requestError (("timeout" : String).data)

/-- Counterexample to claim C4 as stated: the first provider signals "not
found" through a parsed flag in its body; the per-code tally is incremented
(so only one provider signalled not-found and the generic failure message is
returned), yet the failure message contains a diagnostic entry recorded for
that very provider, so the claim that no entry is appended for a "not found"
signal is false. -/
theorem c4_contraexemplo :
    consultar_apis_cep (("01310100" : String).data) c4env =
      (none, some (msgFalhaConsulta
        [mkDiag (("BrasilAPI" : String).data) (("CEP não encontrado" : String).data),
         mkDiag (("OpenCEP" : String).data) (("timeout" : String).data),
         mkDiag (("Postmon" : String).data) (("timeout" : String).data),
         mkDiag (("ViaCEP" : String).data) (("timeout" : String).data)]))
    ∧ outcomeTally (ProviderOutcome.parsedError (("CEP não encontrado" : String).data)) = 1 := by
  constructor
  · decide
  · decide

theorem dlookup_montarCepCache (ceps : List Str) (env : Nat → ProviderOutcome)
    (c2 : Str) (h : c2 ∈ ceps) :
    dlookup c2 (montarCepCache ceps env) = some (consultar_apis_cep c2 env) := by
  induction ceps with
  | nil => cases h
  | cons a rest ih =>
    show (if a = c2 then some (consultar_apis_cep a env)
          else dlookup c2 (montarCepCache rest env)) = _
    by_cases ha : a = c2
    · rw [if_pos ha, ha]
    · rw [if_neg ha]
      rcases List.mem_cons.mp h with he | hm
      · exact absurd he.symm ha
      · exact ih hm

/-- Claim C10: a value that is not exactly 8 decimal digits is rejected by
`consultar_apis_cep` immediately, with a result that does not depend on any
provider response; consequently every code admitted by the pre-warm filter
whose zero-filled digit string is longer than 8 digits is cached as that
failure, again independently of the providers. -/
theorem c10_cep_invalido :
    ∀ (cep : Str) (env : Nat → ProviderOutcome) (header_map : List (Str × Str))
      (cab : List Str) (linhas : List (List (Str × Str))) (c2 : Str),
      (¬ (cep.length = 8 ∧ cep.all Char.isDigit = true) →
        consultar_apis_cep cep env = (none, some msgFormatoInvalido))
      ∧ (c2 ∈ (preAquecerCeps header_map cab linhas).1 → 8 < c2.length →
          dlookup c2 (montarCepCache (preAquecerCeps header_map cab linhas).1 env)
            = some (none, some msgFormatoInvalido)) := by
  intro cep env header_map cab linhas c2
  constructor
  · intro h
    unfold consultar_apis_cep
    rw [if_neg h]
  · intro hmem hlen
    rw [dlookup_montarCepCache _ env c2 hmem]
    have hrej : consultar_apis_cep c2 env = (none, some msgFormatoInvalido) := by
      unfold consultar_apis_cep
      rw [if_neg (fun hcd => by omega)]
    rw [hrej]

theorem c10_cep_invalido_witness :
    consultar_apis_cep (("123" : String).data) (fun _ => ProviderOutcome.jsonError)
        = (none, some msgFormatoInvalido)
    ∧ dlookup (("123456789" : String).data)
        (montarCepCache
          (preAquecerCeps [] [cCEP] [[(cCEP, ("123456789" : String).data)]]).1
          (fun _ => ProviderOutcome.jsonError))
        = some (none, some msgFormatoInvalido) := by
  have h := c10_cep_invalido (("123" : String).data) (fun _ => ProviderOutcome.jsonError)
    [] [cCEP] [[(cCEP, ("123456789" : String).data)]] (("123456789" : String).data)
  exact ⟨h.1 (by decide), h.2 (by decide) (by decide)⟩

/-! ### Claim C7: the postal column and the pre-warm warning -/

/-- Claim C7 (amended): when lookup is requested the raw postal column is the
first explicit override key mapped to `CEP`, or else the literal name `CEP`;
the pre-warm phase collects exactly the distinct zero-filled digit strings of
the trimmed values of that column having at least 7 digits; and the "postal
column absent" warning is emitted exactly when that designated name does not
occur verbatim (case-sensitively) among the raw header columns — even if some
raw column maps to the postal field case-insensitively. -/
theorem c7_coluna_cep :
    ∀ (header_map : List (Str × Str)) (cab : List Str)
      (linhas : List (List (Str × Str))) (k v c2 : Str),
      ((preAquecerCeps header_map cab linhas).2 = true ↔ colunaCepArquivo header_map ∉ cab)
      ∧ (header_map.find? (fun p => decide (p.2 = cCEP)) = none →
          colunaCepArquivo header_map = cCEP)
      ∧ (header_map.find? (fun p => decide (p.2 = cCEP)) = some (k, v) →
          colunaCepArquivo header_map = k)
      ∧ (colunaCepArquivo header_map ∈ cab →
          (c2 ∈ (preAquecerCeps header_map cab linhas).1 ↔
            ∃ l ∈ linhas,
              7 ≤ (digitsOf (strip (dget l (colunaCepArquivo header_map)))).length
              ∧ zfill8 (digitsOf (strip (dget l (colunaCepArquivo header_map)))) = c2)) := by
  intro header_map cab linhas k v c2
  refine ⟨?_, ?_, ?_, ?_⟩
  · by_cases hc : colunaCepArquivo header_map ∈ cab
    · simp [preAquecerCeps, hc]
    · simp [preAquecerCeps, hc]
  · intro hf
    unfold colunaCepArquivo
    rw [hf]
  · intro hf
    unfold colunaCepArquivo
    rw [hf]
  · intro hc
    show c2 ∈ (preAquecerCeps header_map cab linhas).1 ↔ _
    unfold preAquecerCeps
    rw [if_pos hc]
    simp only [List.mem_dedup, List.mem_map, List.mem_filter, decide_eq_true_eq]
    constructor
    · rintro ⟨a, ⟨⟨l, hl, ha⟩, h7⟩, hz⟩
      exact ⟨l, hl, by rw [ha]; exact h7, by rw [ha]; exact hz⟩
    · rintro ⟨l, hl, h7, hz⟩
      exact ⟨strip (dget l (colunaCepArquivo header_map)), ⟨⟨l, hl, rfl⟩, h7⟩, hz⟩

theorem c7_coluna_cep_witness :
    colunaCepArquivo [(("MEUCEP" : String).data, cCEP)] = ("MEUCEP" : String).data
    ∧ ("01310100" : String).data ∈
        (preAquecerCeps [(("MEUCEP" : String).data, cCEP)] [("MEUCEP" : String).data]
          [[(("MEUCEP" : String).data, (" 1310100 " : String).data)]]).1 := by
  have h := c7_coluna_cep [(("MEUCEP" : String).data, cCEP)] [("MEUCEP" : String).data]
    [[(("MEUCEP" : String).data, (" 1310100 " : String).data)]]
    (("MEUCEP" : String).data) cCEP (("01310100" : String).data)
  refine ⟨h.2.2.1 (by decide), ?_⟩
  exact (h.2.2.2 (by decide)).mpr
    ⟨[(("MEUCEP" : String).data, (" 1310100 " : String).data)], by decide, by decide, by decide⟩

/-- Counterexample to claim C7 as stated: with no override and a raw header
whose only column is `"cep"`, the warning is emitted (the check is a
case-sensitive membership of the literal `"CEP"`), even though that raw column
does map to the postal field under the case-insensitive header-mapping rules. -/
theorem c7_contraexemplo :
    (preAquecerCeps [] [("cep" : String).data] []).2 = true
    ∧ mapCol [] (("cep" : String).data) = some cCEP := by
  exact ⟨by decide, by decide⟩

/-! ### Claim C6: sanitization of mapped values -/

theorem sanitizar_fst (i : Nat) (m : List (Str × Str)) :
    (sanitizarValores i m).1 = m.map (fun p => (p.1, sanitizeVal p.2)) := by
  induction m with
  | nil => rfl
  | cons p rest ih =>
    show (p.1, sanitizeVal p.2) :: (sanitizarValores i rest).1 = _
    rw [List.map_cons, ih]

theorem sanitizar_snd (i : Nat) (m : List (Str × Str)) :
    (sanitizarValores i m).2 = m.filterMap (fun p =>
      if strip p.2 ≠ sanitizeVal p.2 then
        some ⟨i, p.1, strip p.2, sanitizeVal p.2, Fonte.Limpeza⟩
      else none) := by
  induction m with
  | nil => rfl
  | cons p rest ih =>
    show (if strip p.2 ≠ sanitizeVal p.2 then
        [(⟨i, p.1, strip p.2, sanitizeVal p.2, Fonte.Limpeza⟩ : Correcao)] else [])
        ++ (sanitizarValores i rest).2 = _
    rw [List.filterMap_cons, ih]
    by_cases hc : strip p.2 = sanitizeVal p.2
    · rw [if_neg (by simpa using hc), if_neg (by simpa using hc)]
      rfl
    · rw [if_pos hc, if_pos hc]
      rfl

/-- Claim C6 (amended): sanitization maps every value to its trimmed,
quote-free form with the delimiter turned into a space and whitespace runs
collapsed (so the result is trim-fixed), and a `Limpeza` correction — carrying
the TRIMMED original and the sanitized value — is recorded exactly when the
trimmed original differs from the sanitized value; a change consisting only of
leading/trailing whitespace removal is therefore not recorded. -/
theorem c6_sanitizacao :
    ∀ (i : Nat) (m : List (Str × Str)),
      (sanitizarValores i m).1 = m.map (fun p => (p.1, sanitizeVal p.2))
      ∧ (sanitizarValores i m).2 = m.filterMap (fun p =>
          if strip p.2 ≠ sanitizeVal p.2 then
            some ⟨i, p.1, strip p.2, sanitizeVal p.2, Fonte.Limpeza⟩
          else none)
      ∧ (∀ w : Str, strip (sanitizeVal w) = sanitizeVal w) := by
  intro i m
  refine ⟨sanitizar_fst i m, sanitizar_snd i m, fun w => ?_⟩
  simp only [sanitizeVal]
  exact strip_strip _

/-- Counterexample to claim C6 as stated: the raw value `" abc "` is changed
by sanitization (to `"abc"`), yet no Cleanup correction is recorded, because
the recording compares the already-trimmed original with the sanitized value. -/
theorem c6_contraexemplo :
    sanitizarValores 2 [(("NOME" : String).data, (" abc " : String).data)]
        = ([(("NOME" : String).data, ("abc" : String).data)], [])
    ∧ (" abc " : String).data ≠ ("abc" : String).data := by
  exact ⟨by decide, by decide⟩

/-! ### Key discipline of the pipeline snapshots -/

theorem mapearLinhaAux_nodup (header_map : List (Str × Str)) :
    ∀ (linha acc : List (Str × Str)), (chaves acc).Nodup →
      (chaves (mapearLinhaAux header_map linha acc)).Nodup := by
  intro linha
  induction linha with
  | nil => intro acc h; exact h
  | cons p rest ih =>
    intro acc h
    apply ih
    by_cases hp : p.1 = []
    · rw [if_pos hp]; exact h
    · rw [if_neg hp]
      cases mapCol header_map p.1 with
      | none => exact h
      | some cs =>
        show (chaves (if cs = [] then acc else dinsert acc cs p.2)).Nodup
        by_cases hcs : cs = []
        · rw [if_pos hcs]; exact h
        · rw [if_neg hcs]; exact nodup_dinsert acc cs p.2 h

theorem mapearLinha_nodup (header_map linha : List (Str × Str)) :
    (chaves (mapearLinha header_map linha)).Nodup :=
  mapearLinhaAux_nodup header_map linha [] (by simp [chaves])

theorem dlookup_map_val {β γ : Type} (g : β → γ) (k : Str) (m : List (Str × β)) :
    dlookup k (m.map (fun p => (p.1, g p.2))) = (dlookup k m).map g := by
  induction m with
  | nil => rfl
  | cons p rest ih =>
    show (if p.1 = k then some (g p.2) else dlookup k (rest.map _)) = _
    by_cases hp : p.1 = k
    · rw [if_pos hp]
      show _ = (if p.1 = k then some p.2 else dlookup k rest).map g
      rw [if_pos hp]
      rfl
    · rw [if_neg hp, ih]
      show _ = (if p.1 = k then some p.2 else dlookup k rest).map g
      rw [if_neg hp]

theorem chaves_map_val {β γ : Type} (g : β → γ) (m : List (Str × β)) :
    chaves (m.map (fun p => (p.1, g p.2))) = chaves m := by
  simp only [chaves, List.map_map]
  rfl

theorem chaves_sanitizar (i : Nat) (m : List (Str × Str)) :
    chaves (sanitizarValores i m).1 = chaves m := by
  rw [sanitizar_fst]
  exact chaves_map_val _ m

theorem dlookup_sanitizar (i : Nat) (m : List (Str × Str)) (k : Str) :
    dlookup k (sanitizarValores i m).1 = (dlookup k m).map sanitizeVal := by
  rw [sanitizar_fst]
  exact dlookup_map_val _ k m

theorem sanitizar_fonte (i : Nat) (m : List (Str × Str)) :
    ∀ c ∈ (sanitizarValores i m).2, c.fonte = Fonte.Limpeza := by
  intro c hc
  rw [sanitizar_snd] at hc
  rcases List.mem_filterMap.mp hc with ⟨p, _, hp⟩
  by_cases hd : strip p.2 ≠ sanitizeVal p.2
  · rw [if_pos hd] at hp
    cases hp
    rfl
  · rw [if_neg hd] at hp
    cases hp

theorem aplicarFormatoAux_dlookup_none (i : Nat) :
    ∀ (rules : List (Str × Regra)) (m : List (Str × Str)) (cs : List Correcao) (k : Str),
      dlookup k m = none → dlookup k (aplicarFormatoAux i rules m cs).1 = none := by
  intro rules
  induction rules with
  | nil => intro m cs k h; exact h
  | cons r rest ih =>
    intro m cs k h
    obtain ⟨col, co, va, mg⟩ := r
    cases co with
    | none => exact ih m cs k h
    | some f =>
      simp only [aplicarFormatoAux]
      cases hl : dlookup col m with
      | none => exact ih m cs k h
      | some val =>
        apply ih
        rw [dlookup_dinsert]
        by_cases hk : k = col
        · subst hk
          rw [h] at hl
          cases hl
        · rw [if_neg hk]
          exact h

theorem aplicarFormatoAux_nodup (i : Nat) :
    ∀ (rules : List (Str × Regra)) (m : List (Str × Str)) (cs : List Correcao),
      (chaves m).Nodup → (chaves (aplicarFormatoAux i rules m cs).1).Nodup := by
  intro rules
  induction rules with
  | nil => intro m cs h; exact h
  | cons r rest ih =>
    intro m cs h
    obtain ⟨col, co, va, mg⟩ := r
    cases co with
    | none => exact ih m cs h
    | some f =>
      simp only [aplicarFormatoAux]
      cases hl : dlookup col m with
      | none => exact ih m cs h
      | some val => exact ih _ _ (nodup_dinsert m col (f val) h)

theorem aplicarFormatoAux_fonte (i : Nat) :
    ∀ (rules : List (Str × Regra)) (m : List (Str × Str)) (cs : List Correcao),
      (∀ c ∈ cs, c.fonte = Fonte.Formato) →
      ∀ c ∈ (aplicarFormatoAux i rules m cs).2, c.fonte = Fonte.Formato := by
  intro rules
  induction rules with
  | nil => intro m cs h; exact h
  | cons r rest ih =>
    intro m cs h
    obtain ⟨col, co, va, mg⟩ := r
    cases co with
    | none => exact ih m cs h
    | some f =>
      simp only [aplicarFormatoAux]
      cases hl : dlookup col m with
      | none => exact ih m cs h
      | some val =>
        apply ih
        intro c hc
        rcases List.mem_append.mp hc with hc1 | hc2
        · exact h c hc1
        · by_cases hd : val ≠ f val
          · rw [if_pos hd] at hc2
            rcases List.mem_singleton.mp hc2 with rfl
            rfl
          · rw [if_neg hd] at hc2
            cases hc2

/-! ### Properties of the API overwrite loop -/

theorem aplicarApiAux_acc (i : Nat) (dados : Endereco) :
    ∀ (campos : List ((Endereco → Str) × Str)) (m : List (Str × Str)) (cs : List Correcao),
      (aplicarApiAux i dados campos m cs).1 = (aplicarApiAux i dados campos m []).1
      ∧ (aplicarApiAux i dados campos m cs).2 = cs ++ (aplicarApiAux i dados campos m []).2 := by
  intro campos
  induction campos with
  | nil =>
    intro m cs
    exact ⟨rfl, (List.append_nil cs).symm⟩
  | cons campo rest ih =>
    intro m cs
    simp only [aplicarApiAux, List.nil_append]
    by_cases hc : strip (campo.1 dados) ≠ []
        ∧ upperStr (strip (campo.1 dados)) ≠ upperStr (strip (dget m campo.2))
    · rw [if_pos hc, if_pos hc]
      constructor
      · conv_lhs => rw [(ih _ _).1]
        conv_rhs => rw [(ih _ _).1]
      · conv_lhs => rw [(ih _ _).2]
        conv_rhs => rw [(ih _ _).2]
        simp
    · rw [if_neg hc, if_neg hc]
      exact ih m cs

theorem aplicarApiAux_head (i : Nat) (dados : Endereco)
    (campo : (Endereco → Str) × Str) (rest : List ((Endereco → Str) × Str))
    (m : List (Str × Str))
    (hc : strip (campo.1 dados) ≠ []
      ∧ upperStr (strip (campo.1 dados)) ≠ upperStr (strip (dget m campo.2))) :
    (aplicarApiAux i dados (campo :: rest) m []).1
        = (aplicarApiAux i dados rest (dinsert m campo.2 (strip (campo.1 dados))) []).1
    ∧ (aplicarApiAux i dados (campo :: rest) m []).2
        = (⟨i, campo.2, strip (dget m campo.2), strip (campo.1 dados), Fonte.API⟩ : Correcao)
          :: (aplicarApiAux i dados rest (dinsert m campo.2 (strip (campo.1 dados))) []).2 := by
  simp only [aplicarApiAux, List.nil_append]
  rw [if_pos hc]
  exact ⟨(aplicarApiAux_acc i dados rest _ _).1,
    (aplicarApiAux_acc i dados rest _ _).2⟩

theorem aplicarApiAux_headskip (i : Nat) (dados : Endereco)
    (campo : (Endereco → Str) × Str) (rest : List ((Endereco → Str) × Str))
    (m : List (Str × Str))
    (hc : ¬ (strip (campo.1 dados) ≠ []
      ∧ upperStr (strip (campo.1 dados)) ≠ upperStr (strip (dget m campo.2)))) :
    aplicarApiAux i dados (campo :: rest) m [] = aplicarApiAux i dados rest m [] := by
  simp only [aplicarApiAux]
  rw [if_neg hc]

theorem aplicarApiAux_cols (i : Nat) (dados : Endereco) :
    ∀ (campos : List ((Endereco → Str) × Str)) (m : List (Str × Str)),
      ((aplicarApiAux i dados campos m []).2).map Correcao.coluna ⊆ campos.map Prod.snd := by
  intro campos
  induction campos with
  | nil =>
    intro m x hx
    cases hx
  | cons campo rest ih =>
    intro m x hx
    by_cases hc : strip (campo.1 dados) ≠ []
        ∧ upperStr (strip (campo.1 dados)) ≠ upperStr (strip (dget m campo.2))
    · rw [(aplicarApiAux_head i dados campo rest m hc).2, List.map_cons] at hx
      rcases List.mem_cons.mp hx with hx | hx
      · rw [hx]
        exact List.mem_cons_self _ _
      · exact List.mem_cons_of_mem _ (ih _ hx)
    · rw [aplicarApiAux_headskip i dados campo rest m hc] at hx
      exact List.mem_cons_of_mem _ (ih m hx)

theorem aplicarApiAux_unchanged (i : Nat) (dados : Endereco) :
    ∀ (campos : List ((Endereco → Str) × Str)) (m : List (Str × Str)) (k : Str),
      k ∉ ((aplicarApiAux i dados campos m []).2).map Correcao.coluna →
      dlookup k (aplicarApiAux i dados campos m []).1 = dlookup k m := by
  intro campos
  induction campos with
  | nil => intro m k _; rfl
  | cons campo rest ih =>
    intro m k hk
    by_cases hc : strip (campo.1 dados) ≠ []
        ∧ upperStr (strip (campo.1 dados)) ≠ upperStr (strip (dget m campo.2))
    · rw [(aplicarApiAux_head i dados campo rest m hc).2, List.map_cons] at hk
      rw [(aplicarApiAux_head i dados campo rest m hc).1]
      have hk1 : k ≠ campo.2 := fun he => hk (by rw [he]; exact List.mem_cons_self _ _)
      have hk2 : k ∉ ((aplicarApiAux i dados rest
          (dinsert m campo.2 (strip (campo.1 dados))) []).2).map Correcao.coluna :=
        fun hmem => hk (List.mem_cons_of_mem _ hmem)
      rw [ih _ k hk2, dlookup_dinsert, if_neg hk1]
    · rw [aplicarApiAux_headskip i dados campo rest m hc] at hk ⊢
      exact ih m k hk

theorem aplicarApiAux_changed (i : Nat) (dados : Endereco) :
    ∀ (campos : List ((Endereco → Str) × Str)), (campos.map Prod.snd).Nodup →
      ∀ (m : List (Str × Str)) (k : Str),
      k ∈ ((aplicarApiAux i dados campos m []).2).map Correcao.coluna →
      dget (aplicarApiAux i dados campos m []).1 k ≠ dget m k
      ∧ ∃ w, dlookup k (aplicarApiAux i dados campos m []).1 = some w ∧ w ≠ [] := by
  intro campos
  induction campos with
  | nil =>
    intro _ m k hk
    cases hk
  | cons campo rest ih =>
    intro hnd m k hk
    obtain ⟨hhead, htail⟩ := List.nodup_cons.mp (by
      rw [List.map_cons] at hnd
      exact hnd)
    by_cases hc : strip (campo.1 dados) ≠ []
        ∧ upperStr (strip (campo.1 dados)) ≠ upperStr (strip (dget m campo.2))
    · rw [(aplicarApiAux_head i dados campo rest m hc).2, List.map_cons] at hk
      rw [(aplicarApiAux_head i dados campo rest m hc).1]
      rcases List.mem_cons.mp hk with hk | hk
      · subst hk
        have hnotin : campo.2 ∉ ((aplicarApiAux i dados rest
            (dinsert m campo.2 (strip (campo.1 dados))) []).2).map Correcao.coluna :=
          fun hmem => hhead (aplicarApiAux_cols i dados rest _ hmem)
        have hfin : dlookup campo.2 (aplicarApiAux i dados rest
            (dinsert m campo.2 (strip (campo.1 dados))) []).1
            = some (strip (campo.1 dados)) := by
          rw [aplicarApiAux_unchanged i dados rest _ campo.2 hnotin, dlookup_dinsert,
            if_pos rfl]
        refine ⟨?_, ⟨strip (campo.1 dados), hfin, hc.1⟩⟩
        rw [dget, hfin]
        intro heq
        apply hc.2
        have hstrip : strip (dget m campo.2) = strip (campo.1 dados) := by
          rw [← heq]
          show strip ((some (strip (campo.1 dados))).getD []) = _
          exact strip_strip _
        rw [hstrip]
      · have hkrest : k ∈ rest.map Prod.snd := aplicarApiAux_cols i dados rest _ hk
        have hkne : k ≠ campo.2 := fun he => hhead (he ▸ hkrest)
        obtain ⟨hne, w, hw, hwne⟩ := ih htail (dinsert m campo.2 (strip (campo.1 dados))) k hk
        refine ⟨?_, ⟨w, hw, hwne⟩⟩
        rw [show dget (dinsert m campo.2 (strip (campo.1 dados))) k = dget m k from by
          rw [dget, dlookup_dinsert, if_neg hkne]; rfl] at hne
        exact hne
    · rw [aplicarApiAux_headskip i dados campo rest m hc] at hk ⊢
      exact ih htail m k hk

theorem aplicarApiAux_fonte (i : Nat) (dados : Endereco) :
    ∀ (campos : List ((Endereco → Str) × Str)) (m : List (Str × Str)),
      ∀ c ∈ (aplicarApiAux i dados campos m []).2, c.fonte = Fonte.API := by
  intro campos
  induction campos with
  | nil =>
    intro m c hc
    cases hc
  | cons campo rest ih =>
    intro m c hc
    by_cases hcond : strip (campo.1 dados) ≠ []
        ∧ upperStr (strip (campo.1 dados)) ≠ upperStr (strip (dget m campo.2))
    · rw [(aplicarApiAux_head i dados campo rest m hcond).2] at hc
      rcases List.mem_cons.mp hc with hc1 | hc2
      · rw [hc1]
      · exact ih _ c hc2
    · rw [aplicarApiAux_headskip i dados campo rest m hcond] at hc
      exact ih m c hc

theorem aplicarApiAux_nodup (i : Nat) (dados : Endereco) :
    ∀ (campos : List ((Endereco → Str) × Str)) (m : List (Str × Str)) (cs : List Correcao),
      (chaves m).Nodup → (chaves (aplicarApiAux i dados campos m cs).1).Nodup := by
  intro campos
  induction campos with
  | nil => intro m cs h; exact h
  | cons campo rest ih =>
    intro m cs h
    simp only [aplicarApiAux]
    by_cases hc : strip (campo.1 dados) ≠ []
        ∧ upperStr (strip (campo.1 dados)) ≠ upperStr (strip (dget m campo.2))
    · rw [if_pos hc]
      exact ih _ _ (nodup_dinsert m campo.2 (strip (campo.1 dados)) h)
    · rw [if_neg hc]
      exact ih m cs h

/-! ### Properties of the validation step -/

theorem checarCampo_coluna (i : Nat) (col val : Str) (e : RowError)
    (h : checarCampo i col val = some e) : e.coluna = col ∧ e.linha = i := by
  unfold checarCampo at h
  split at h
  · cases h
    exact ⟨rfl, rfl⟩
  · split at h
    · split at h
      · split at h
        · split at h
          · simp at h
          · cases h
            exact ⟨rfl, rfl⟩
        · simp at h
      · simp at h
    · simp at h

theorem validar_nao_contem (i : Nat) (f : Str) :
    ∀ m : List (Str × Str), dlookup f m = none →
      (validarValores i m).filter (fun e => decide (e.coluna = f)) = [] := by
  intro m
  induction m with
  | nil => intro _; rfl
  | cons p rest ih =>
    intro h
    have hcons : (if p.1 = f then some p.2 else dlookup f rest) = none := h
    by_cases hp : p.1 = f
    · rw [if_pos hp] at hcons
      cases hcons
    · rw [if_neg hp] at hcons
      show ((checarCampo i p.1 p.2).toList ++ validarValores i rest).filter
          (fun e => decide (e.coluna = f)) = []
      rw [List.filter_append, ih hcons]
      cases hc : checarCampo i p.1 p.2 with
      | none => rfl
      | some e =>
        have hcol := (checarCampo_coluna i p.1 p.2 e hc).1
        show ([e].filter (fun e => decide (e.coluna = f))) ++ [] = []
        rw [List.filter_cons_of_neg (by simp [hcol, hp])]
        rfl

theorem validar_filter_eq (i : Nat) (f : Str) :
    ∀ (m : List (Str × Str)) (v : Str), (chaves m).Nodup → dlookup f m = some v →
      (validarValores i m).filter (fun e => decide (e.coluna = f))
        = (checarCampo i f v).toList := by
  intro m
  induction m with
  | nil =>
    intro v _ h
    cases h
  | cons p rest ih =>
    intro v hnd h
    obtain ⟨hhead, htail⟩ := List.nodup_cons.mp (by
      show (p.1 :: chaves rest).Nodup
      exact hnd)
    have hcons : (if p.1 = f then some p.2 else dlookup f rest) = some v := h
    show ((checarCampo i p.1 p.2).toList ++ validarValores i rest).filter
        (fun e => decide (e.coluna = f)) = _
    rw [List.filter_append]
    by_cases hp : p.1 = f
    · rw [if_pos hp] at hcons
      have hv : p.2 = v := Option.some.inj hcons
      have hrest : dlookup f rest = none := by
        rw [dlookup_eq_none_iff]
        rw [hp] at hhead
        exact hhead
      rw [validar_nao_contem i f rest hrest, List.append_nil]
      subst hp
      subst hv
      cases hc : checarCampo i p.1 p.2 with
      | none => rfl
      | some e =>
        have hcol := (checarCampo_coluna i p.1 p.2 e hc).1
        show [e].filter (fun e => decide (e.coluna = p.1)) = [e]
        rw [List.filter_cons_of_pos (by simp [hcol])]
        rfl
    · rw [if_neg hp] at hcons
      rw [ih v htail hcons]
      cases hc : checarCampo i p.1 p.2 with
      | none => rfl
      | some e =>
        have hcol := (checarCampo_coluna i p.1 p.2 e hc).1
        show ([e].filter (fun e => decide (e.coluna = f)))
            ++ (checarCampo i f v).toList = (checarCampo i f v).toList
        rw [List.filter_cons_of_neg (by simp [hcol, hp])]
        rfl

/-! ### The API step at the row level -/

theorem aplicarApiCache_cases (usar_api : Bool) (cep_cache : List (Str × CepResult))
    (i : Nat) (m : List (Str × Str)) :
    ((aplicarApiCache usar_api cep_cache i m).1 = m
      ∧ (aplicarApiCache usar_api cep_cache i m).2.1 = [])
    ∨ ∃ d, (aplicarApiCache usar_api cep_cache i m).1
          = (aplicarApiAux i d CAMPOS_API m []).1
        ∧ (aplicarApiCache usar_api cep_cache i m).2.1
          = (aplicarApiAux i d CAMPOS_API m []).2 := by
  unfold aplicarApiCache
  split
  · split
    · exact Or.inl ⟨rfl, rfl⟩
    · split
      · split
        · exact Or.inr ⟨_, rfl, rfl⟩
        · exact Or.inl ⟨rfl, rfl⟩
      · exact Or.inl ⟨rfl, rfl⟩
    · split
      · exact Or.inr ⟨_, rfl, rfl⟩
      · exact Or.inl ⟨rfl, rfl⟩
  · exact Or.inl ⟨rfl, rfl⟩

theorem aplicarApiCache_nodup (usar_api : Bool) (cep_cache : List (Str × CepResult))
    (i : Nat) (m : List (Str × Str)) (h : (chaves m).Nodup) :
    (chaves (aplicarApiCache usar_api cep_cache i m).1).Nodup := by
  rcases aplicarApiCache_cases usar_api cep_cache i m with ⟨h1, _⟩ | ⟨d, h1, _⟩
  · rw [h1]; exact h
  · rw [h1]; exact aplicarApiAux_nodup i d CAMPOS_API m [] h

theorem aplicarApiCache_dget_iff (usar_api : Bool) (cep_cache : List (Str × CepResult))
    (i : Nat) (m : List (Str × Str)) (k : Str) :
    dget (aplicarApiCache usar_api cep_cache i m).1 k ≠ dget m k ↔
      k ∈ ((aplicarApiCache usar_api cep_cache i m).2.1).map Correcao.coluna := by
  rcases aplicarApiCache_cases usar_api cep_cache i m with ⟨h1, h2⟩ | ⟨d, h1, h2⟩
  · rw [h1, h2]
    simp
  · rw [h1, h2]
    constructor
    · intro hne
      by_contra hni
      exact hne (by rw [dget, aplicarApiAux_unchanged i d CAMPOS_API m k hni]; rfl)
    · intro hmem
      exact (aplicarApiAux_changed i d CAMPOS_API (by decide) m k hmem).1

theorem aplicarApiCache_changed (usar_api : Bool) (cep_cache : List (Str × CepResult))
    (i : Nat) (m : List (Str × Str)) (k : Str)
    (hne : dlookup k (aplicarApiCache usar_api cep_cache i m).1 ≠ dlookup k m) :
    ∃ w, dlookup k (aplicarApiCache usar_api cep_cache i m).1 = some w ∧ w ≠ []
      ∧ k ∈ CAMPOS_API.map Prod.snd := by
  rcases aplicarApiCache_cases usar_api cep_cache i m with ⟨h1, _⟩ | ⟨d, h1, _⟩
  · rw [h1] at hne
    exact absurd rfl hne
  · rw [h1] at hne ⊢
    by_cases hm : k ∈ ((aplicarApiAux i d CAMPOS_API m []).2).map Correcao.coluna
    · obtain ⟨_, w, hw, hwne⟩ := aplicarApiAux_changed i d CAMPOS_API (by decide) m k hm
      exact ⟨w, hw, hwne, aplicarApiAux_cols i d CAMPOS_API m hm⟩
    · exact absurd (aplicarApiAux_unchanged i d CAMPOS_API m k hm) hne

theorem aplicarApiCache_fonte (usar_api : Bool) (cep_cache : List (Str × CepResult))
    (i : Nat) (m : List (Str × Str)) :
    ∀ c ∈ (aplicarApiCache usar_api cep_cache i m).2.1, c.fonte = Fonte.API := by
  rcases aplicarApiCache_cases usar_api cep_cache i m with ⟨_, h2⟩ | ⟨d, _, h2⟩
  · rw [h2]
    intro c hc
    cases hc
  · rw [h2]
    exact aplicarApiAux_fonte i d CAMPOS_API m

theorem processar_nodup (header_map : List (Str × Str)) (cep_cache : List (Str × CepResult))
    (usar_api : Bool) (cab : List Str) (i : Nat) (linha : List (Str × Str)) :
    (chaves (processarLinha header_map cep_cache usar_api cab i linha).valoresTudo).Nodup := by
  show (chaves (aplicarApiCache usar_api cep_cache i
      (aplicarFormatoAux i VALIDATION_RULES
        (sanitizarValores i (mapearLinha header_map linha)).1 []).1).1).Nodup
  apply aplicarApiCache_nodup
  apply aplicarFormatoAux_nodup
  rw [chaves_sanitizar]
  exact mapearLinha_nodup header_map linha

/-- Claim C2 (amended): for every processed record and every required field
that the record's fully-corrected mapping carries with an empty value, exactly
one row error — the emptiness message — is appended for that (row, field)
pair, whatever the validity of the other fields; and such a field is not
additionally format-checked.  (The unamended claim also covered required
fields supplied by no input column; those produce no error at all, see the
counterexample.) -/
theorem c2_obrigatorio_vazio (header_map : List (Str × Str))
    (cep_cache : List (Str × CepResult)) (usar_api : Bool) (cab : List Str)
    (i : Nat) (linha : List (Str × Str)) (f : Str)
    (hreq : f ∈ COLUNAS_OBRIGATORIAS)
    (hempty : dlookup f (processarLinha header_map cep_cache usar_api cab i linha).valoresTudo
        = some []) :
    ((processarLinha header_map cep_cache usar_api cab i linha).erros).filter
        (fun e => decide (e.coluna = f))
      = [⟨i, f, ("Campo obrigatório está vazio." : String).data⟩] := by
  have hnd := processar_nodup header_map cep_cache usar_api cab i linha
  show (validarValores i
      (processarLinha header_map cep_cache usar_api cab i linha).valoresTudo).filter
      (fun e => decide (e.coluna = f)) = _
  rw [validar_filter_eq i f _ [] hnd hempty]
  unfold checarCampo
  rw [if_pos ⟨hreq, rfl⟩]
  rfl

theorem c2_obrigatorio_vazio_witness :
    ((processarLinha [] [] false [cCEP, ("NOME" : String).data] 2
        [(cCEP, []), (("NOME" : String).data, ("x" : String).data)]).erros).filter
        (fun e => decide (e.coluna = cCEP))
      = [⟨2, cCEP, ("Campo obrigatório está vazio." : String).data⟩] :=
  c2_obrigatorio_vazio [] [] false [cCEP, ("NOME" : String).data] 2
    [(cCEP, []), (("NOME" : String).data, ("x" : String).data)] cCEP
    (by decide) (by decide)

/-- Counterexample to claim C2 as stated: a processed (non-skipped) record
whose input columns do not supply the required field `CEP` produces no row
error at all — the fully-corrected mapping simply has no `CEP` entry — even
though the claim demands an emptiness error regardless of whether the input
columns supply the field. -/
theorem c2_contraexemplo :
    (processarLinha [] [] false [("NOME" : String).data] 2
        [(("NOME" : String).data, ("x" : String).data)]).erros = []
    ∧ dlookup cCEP (processarLinha [] [] false [("NOME" : String).data] 2
        [(("NOME" : String).data, ("x" : String).data)]).valoresTudo = none
    ∧ linhaVazia [(("NOME" : String).data, ("x" : String).data)] = false :=
  ⟨by decide, by decide, by decide⟩

/-- Claim C9: validation only ever reports fields present in the record's
processed mapping: a canonical field to which no input column is mapped — in
particular a required one — yields no row error at all, and no format
predicate outcome for it is ever observable. -/
theorem c9_sem_coluna_sem_erro (header_map : List (Str × Str))
    (cep_cache : List (Str × CepResult)) (usar_api : Bool) (cab : List Str)
    (i : Nat) (linha : List (Str × Str)) (f : Str)
    (h : dlookup f (mapearLinha header_map linha) = none) :
    ((processarLinha header_map cep_cache usar_api cab i linha).erros).filter
        (fun e => decide (e.coluna = f)) = [] := by
  have h1 : dlookup f (sanitizarValores i (mapearLinha header_map linha)).1 = none := by
    rw [dlookup_sanitizar, h]
    rfl
  have h2 : dlookup f (aplicarFormatoAux i VALIDATION_RULES
      (sanitizarValores i (mapearLinha header_map linha)).1 []).1 = none :=
    aplicarFormatoAux_dlookup_none i VALIDATION_RULES _ [] f h1
  have hnd := processar_nodup header_map cep_cache usar_api cab i linha
  show (validarValores i
      (processarLinha header_map cep_cache usar_api cab i linha).valoresTudo).filter
      (fun e => decide (e.coluna = f)) = []
  cases hl : dlookup f
      (processarLinha header_map cep_cache usar_api cab i linha).valoresTudo with
  | none => exact validar_nao_contem i f _ hl
  | some w =>
    have hne : dlookup f (aplicarApiCache usar_api cep_cache i
        (aplicarFormatoAux i VALIDATION_RULES
          (sanitizarValores i (mapearLinha header_map linha)).1 []).1).1
        ≠ dlookup f (aplicarFormatoAux i VALIDATION_RULES
          (sanitizarValores i (mapearLinha header_map linha)).1 []).1 := by
      rw [h2]
      intro hcontr
      rw [show dlookup f (aplicarApiCache usar_api cep_cache i
          (aplicarFormatoAux i VALIDATION_RULES
            (sanitizarValores i (mapearLinha header_map linha)).1 []).1).1 = some w from hl]
        at hcontr
      cases hcontr
    obtain ⟨w2, hw2, hwne, hmem⟩ := aplicarApiCache_changed usar_api cep_cache i _ f hne
    rw [validar_filter_eq i f _ w2 hnd hw2]
    have hrules : dlookup f VALIDATION_RULES = none := by
      have hmem2 : f ∈ [("ENDERECO" : String).data, ("BAIRRO" : String).data,
          ("CIDADE" : String).data, ("UF" : String).data] := hmem
      simp only [List.mem_cons, List.not_mem_nil, or_false] at hmem2
      rcases hmem2 with rfl | rfl | rfl | rfl
      · rfl
      · rfl
      · rfl
      · rfl
    have hcheck : checarCampo i f w2 = none := by
      unfold checarCampo
      rw [if_neg (fun hco => hwne hco.2), if_pos hwne, hrules]
    rw [hcheck]
    rfl

theorem c9_sem_coluna_sem_erro_witness :
    (dlookup cCEP (mapearLinha [] [(("NOME" : String).data, ("y" : String).data)]) = none)
    ∧ ((processarLinha [] [] false [("NOME" : String).data] 2
        [(("NOME" : String).data, ("y" : String).data)]).erros).filter
        (fun e => decide (e.coluna = cCEP)) = [] :=
  ⟨by decide, c9_sem_coluna_sem_erro [] [] false [("NOME" : String).data] 2
    [(("NOME" : String).data, ("y" : String).data)] cCEP (by decide)⟩

/-! ### Claim C1: differences between the two output rows -/

theorem getD_map_str (l : List Str) (g : Str → Str) :
    ∀ j, j < l.length → (l.map g).getD j [] = g (l.getD j []) := by
  induction l with
  | nil =>
    intro j hj
    cases hj
  | cons a rest ih =>
    intro j hj
    cases j with
    | zero => rfl
    | succ n =>
      show (rest.map g).getD n [] = g (rest.getD n [])
      exact ih n (by
        have : n + 1 < rest.length + 1 := hj
        omega)

theorem processar_filter_api (header_map : List (Str × Str))
    (cep_cache : List (Str × CepResult)) (usar_api : Bool) (cab : List Str)
    (i : Nat) (linha : List (Str × Str)) :
    ((processarLinha header_map cep_cache usar_api cab i linha).correcoes.filter
        (fun c => decide (c.fonte = Fonte.API))).map Correcao.coluna
      = ((aplicarApiCache usar_api cep_cache i
          (aplicarFormatoAux i VALIDATION_RULES
            (sanitizarValores i (mapearLinha header_map linha)).1 []).1).2.1).map
          Correcao.coluna := by
  show (((sanitizarValores i (mapearLinha header_map linha)).2
      ++ (aplicarFormatoAux i VALIDATION_RULES
          (sanitizarValores i (mapearLinha header_map linha)).1 []).2
      ++ (aplicarApiCache usar_api cep_cache i
          (aplicarFormatoAux i VALIDATION_RULES
            (sanitizarValores i (mapearLinha header_map linha)).1 []).1).2.1).filter
      (fun c => decide (c.fonte = Fonte.API))).map Correcao.coluna = _
  rw [List.filter_append, List.filter_append]
  have hs : ((sanitizarValores i (mapearLinha header_map linha)).2).filter
      (fun c => decide (c.fonte = Fonte.API)) = [] := by
    apply List.filter_eq_nil_iff.mpr
    intro c hc
    rw [sanitizar_fonte i _ c hc]
    decide
  have hf : ((aplicarFormatoAux i VALIDATION_RULES
      (sanitizarValores i (mapearLinha header_map linha)).1 []).2).filter
      (fun c => decide (c.fonte = Fonte.API)) = [] := by
    apply List.filter_eq_nil_iff.mpr
    intro c hc
    rw [aplicarFormatoAux_fonte i VALIDATION_RULES _ [] (fun c2 hc2 => by cases hc2) c hc]
    decide
  have ha : ((aplicarApiCache usar_api cep_cache i
      (aplicarFormatoAux i VALIDATION_RULES
        (sanitizarValores i (mapearLinha header_map linha)).1 []).1).2.1).filter
      (fun c => decide (c.fonte = Fonte.API))
      = (aplicarApiCache usar_api cep_cache i
      (aplicarFormatoAux i VALIDATION_RULES
        (sanitizarValores i (mapearLinha header_map linha)).1 []).1).2.1 := by
    apply List.filter_eq_self.mpr
    intro c hc
    rw [aplicarApiCache_fonte usar_api cep_cache i _ c hc]
    decide
  rw [hs, hf, ha]
  rfl

theorem projetar_diff (header_map linha mF mT : List (Str × Str)) (cab : List Str)
    (apiCols : List Str) (j : Nat) (hj : j < cab.length)
    (hiff : ∀ k, dget mT k ≠ dget mF k ↔ k ∈ apiCols) :
    ((cab.map (projetarCampo header_map linha mT)).getD j []
      ≠ (cab.map (projetarCampo header_map linha mF)).getD j [])
    ↔ (projMap header_map (cab.getD j []) ∈ EXPECTED_HEADER
        ∧ projMap header_map (cab.getD j []) ∈ apiCols) := by
  rw [getD_map_str cab _ j hj, getD_map_str cab _ j hj]
  unfold projetarCampo
  by_cases hcs : projMap header_map (cab.getD j []) ∈ EXPECTED_HEADER
  · rw [if_pos hcs, if_pos hcs, hiff (projMap header_map (cab.getD j []))]
    exact ⟨fun hmem => ⟨hcs, hmem⟩, fun hand => hand.2⟩
  · rw [if_neg hcs, if_neg hcs]
    exact ⟨fun hne => absurd rfl hne, fun hand => absurd hand.1 hcs⟩

/-- Claim C1 (amended): for every processed record, the fully-corrected output
row refines the format-corrected one: at each header position the two rows
differ exactly when that column's canonical field carries an API-sourced
correction of the row; every other position — pass-through columns included —
is identical.  (An API correction recorded for a canonical field that no
header column projects, such as an address field absent from the input header,
produces no difference between the two rows; the unamended claim equated the
row difference with the whole set of API corrections, see the
counterexample.) -/
theorem c1_diferenca_saidas (header_map : List (Str × Str))
    (cep_cache : List (Str × CepResult)) (usar_api : Bool) (cab : List Str)
    (i : Nat) (linha : List (Str × Str)) (j : Nat) (hj : j < cab.length) :
    ((processarLinha header_map cep_cache usar_api cab i linha).linhaApi.getD j []
        ≠ (processarLinha header_map cep_cache usar_api cab i linha).linhaFormato.getD j [])
    ↔ (projMap header_map (cab.getD j []) ∈ EXPECTED_HEADER
        ∧ projMap header_map (cab.getD j []) ∈
          (((processarLinha header_map cep_cache usar_api cab i linha).correcoes.filter
            (fun c => decide (c.fonte = Fonte.API))).map Correcao.coluna)) := by
  rw [processar_filter_api header_map cep_cache usar_api cab i linha]
  exact projetar_diff header_map linha
    (aplicarFormatoAux i VALIDATION_RULES
      (sanitizarValores i (mapearLinha header_map linha)).1 []).1
    (aplicarApiCache usar_api cep_cache i
      (aplicarFormatoAux i VALIDATION_RULES
        (sanitizarValores i (mapearLinha header_map linha)).1 []).1).1
    cab _ j hj
    (aplicarApiCache_dget_iff usar_api cep_cache i _)

def cabExC1 : List Str := [cCEP, ("CIDADE" : String).data]

def linhaExC1 : List (Str × Str) :=
  [(cCEP, ("01310100" : String).data), (("CIDADE" : String).data, ("rio" : String).data)]

def cacheExC1 : List (Str × CepResult) :=
  [(("01310100" : String).data,
    (some ⟨("Avenida Paulista" : String).data, ("Bela Vista" : String).data,
      ("Sao Paulo" : String).data, ("SP" : String).data⟩, none))]

theorem c1_diferenca_saidas_witness :
    ((processarLinha [] cacheExC1 true cabExC1 2 linhaExC1).linhaApi.getD 1 []
        ≠ (processarLinha [] cacheExC1 true cabExC1 2 linhaExC1).linhaFormato.getD 1 [])
    ↔ (projMap [] (cabExC1.getD 1 []) ∈ EXPECTED_HEADER
        ∧ projMap [] (cabExC1.getD 1 []) ∈
          (((processarLinha [] cacheExC1 true cabExC1 2 linhaExC1).correcoes.filter
            (fun c => decide (c.fonte = Fonte.API))).map Correcao.coluna)) :=
  c1_diferenca_saidas [] cacheExC1 true cabExC1 2 linhaExC1 1 (by decide)

def linhaSoCepC1 : List (Str × Str) := [(cCEP, ("01310100" : String).data)]

/-- Counterexample to claim C1 as stated: a record whose only header column is
`CEP`, with a successful postal lookup, ends with identical format-only and
fully-corrected output rows, yet four API-sourced correction entries are
recorded for the row (for the four address fields, none of which any header
column projects) — so the difference between the two output rows is NOT the
set of API-sourced corrections of the row. -/
theorem c1_contraexemplo :
    (processarLinha [] cacheExC1 true [cCEP] 2 linhaSoCepC1).linhaFormato
        = (processarLinha [] cacheExC1 true [cCEP] 2 linhaSoCepC1).linhaApi
    ∧ (processarLinha [] cacheExC1 true [cCEP] 2 linhaSoCepC1).correcoes.filter
        (fun c => decide (c.fonte = Fonte.API)) ≠ []
    ∧ linhaVazia linhaSoCepC1 = false :=
  ⟨by decide, by decide, by decide⟩
